import Mathlib

/-!
# gonstructor command: a shallow embedding of `cmd/gonstructor/gonstructor.go`

Go strings are modelled by `String`.  The only separator the program ever
splits on is the one-byte string `","`; a UTF-8 encoded text contains that byte
exactly where it contains the character `,`, so splitting characters and
splitting bytes agree.

Calls that leave the file (`internal.*`, `constructor.*`, the `gowrtr`
generator, `os.Stat`, `ioutil.WriteFile`, `filepath.Dir`, `strcase.ToSnake`)
are fields of a `World`; every call that `main` makes is recorded, in program
order, as an `Event`.
-/

namespace Gonstructor

deriving instance DecidableEq for Except

/-! ## Constants and flags (lines 18-28) -/

/-- Source constant `allArgsConstructorType` (line 19). -/
def allArgsConstructorType : String := "allArgs"

/-- Source constant `builderConstructorType` (line 20). -/
def builderConstructorType : String := "builder"

/-- The parsed command line: the four flag variables of lines 23-28, the
positional arguments `flag.Args()` and `os.Args[1:]`. -/
structure Flags where
  typeName : String
  output : String
  constructorTypes : String
  shouldShowVersion : Bool
  args : List String
  osArgs : List String
  deriving DecidableEq, Repr

/-- The flag values when the command line sets no flag: the defaults given to
`flag.String` and `flag.Bool` on lines 24-27. -/
def defaultFlags : Flags :=
  { typeName := ""
    output := ""
    constructorTypes := allArgsConstructorType
    shouldShowVersion := false
    args := []
    osArgs := [] }

/-! ## Library functions on strings -/

/-- Pieces of a character list cut at every occurrence of `sep`
(the loop of Go's `strings.Split` for a one-byte separator). -/
def splitChars (sep : Char) : List Char → List (List Char)
  | [] => [[]]
  | c :: cs =>
    if c = sep then [] :: splitChars sep cs
    else
      match splitChars sep cs with
      | [] => [[c]]
      | p :: ps => (c :: p) :: ps

/-- Go `strings.Split(s, sep)` for a separator of one character: the
substrings of `s` between occurrences of `sep`; `[s]` when `sep` does not
occur, in particular `[""]` for the empty string. -/
def Split (s : String) (sep : Char) : List String :=
  (splitChars sep s.data).map String.mk

/-- Go `strings.Join(elems, sep)`. -/
def Join (elems : List String) (sep : String) : String :=
  sep.intercalate elems

/-! ## `getConstructorTypes` (lines 108-116) -/

/-- The `for` loop of `getConstructorTypes` (lines 110-114): the error for the
first piece that is neither constant, `none` when there is no such piece. -/
def firstUnexpected : List String → Option String
  | [] => none
  | typ :: rest =>
    if typ ≠ allArgsConstructorType ∧ typ ≠ builderConstructorType then
      some ("unexpected constructor type has come [given=" ++ typ ++ "]")
    else firstUnexpected rest

/-- Source function `getConstructorTypes`; its argument is the value of the
`-constructorTypes` flag, which the source reads from a global. -/
def getConstructorTypes (constructorTypes : String) : Except String (List String) :=
  let typs := Split constructorTypes ','
  match firstUnexpected typs with
  | some err => .error err
  | none => .ok typs

/-! ## Collaborators and the record of a run -/

/-- The two fields of the loaded package that `main` reads (`pkg.Name`,
`pkg.GoFiles`). -/
structure Package where
  Name : String
  GoFiles : List String
  deriving DecidableEq, Repr

/-- A `g.Statement`: the three statements `main` builds itself and the
statement a constructor generator's `Generate()` hands back. -/
inductive Statement (G : Type) where
  | NewComment (text : String)
  | NewNewline
  | NewPackage (name : String)
  | Generated (decl : G)
  deriving DecidableEq, Repr

/-- Everything `main` calls outside this file.  `Ast` is the parsed files,
`Fields` the collected field list, `G` what a constructor generator produces.
An `Except.error` (for `WriteFile`, a `some`) is the Go call's non-nil error. -/
structure World (Ast Fields G : Type) where
  /-- Call `internal.ParsePackage(args)`. -/
  ParsePackage : List String → Except String Package
  /-- Call `internal.ParseFiles(pkg.GoFiles)`. -/
  ParseFiles : List String → Except String Ast
  /-- Call `constructor.CollectConstructorFieldsFromAST(typeName, astFiles)`. -/
  CollectConstructorFieldsFromAST : String → Ast → Except String Fields
  /-- Call `(&constructor.AllArgsConstructorGenerator{TypeName, Fields}).Generate()`. -/
  AllArgsGenerate : String → Fields → G
  /-- Call `(&constructor.BuilderGenerator{TypeName, Fields}).Generate()`. -/
  BuilderGenerate : String → Fields → G
  /-- Call `root.EnableGoimports().EnableSyntaxChecking().Generate(0)` on a root
  holding the given statements. -/
  RootGenerate : List (Statement G) → Except String String
  /-- Call `os.Stat(name)` followed by `info.IsDir()`. -/
  Stat : String → Except String Bool
  /-- Call `ioutil.WriteFile(name, []byte(code), perm)`. -/
  WriteFile : String → String → Nat → Option String
  /-- Call `filepath.Dir(path)`. -/
  Dir : String → String
  /-- Call `strcase.ToSnake(s)`. -/
  ToSnake : String → String

/-- One call made during a run, or one message logged. -/
inductive Event (Ast Fields G : Type) where
  | ShowVersion
  | Usage
  | LogPrintf (msg : String)
  | LogFatal (msg : String)
  | LogFatalf (msg : String)
  | ParsePackage (args : List String)
  | ParseFiles (files : List String)
  | CollectConstructorFieldsFromAST (typeName : String) (astFiles : Ast)
  | AllArgsGenerate (typeName : String) (fields : Fields)
  | BuilderGenerate (typeName : String) (fields : Fields)
  | RootGenerate (stmts : List (Statement G))
  | Stat (name : String)
  | WriteFile (name : String) (code : String) (perm : Nat)
  deriving DecidableEq

/-- How the process ends: `main` returns (status 0), `os.Exit(code)` (which is
also how `log.Fatal` and `log.Fatalf` end, with code 1), or a run-time panic. -/
inductive Exit where
  | returned
  | exited (code : Nat)
  | panicked
  deriving DecidableEq, Repr

/-- The events of a computation, in order, and what it produced. -/
structure Run (E α : Type) where
  events : List E
  result : α
  deriving DecidableEq

/-- Run `r` after the events `es` have happened. -/
def Run.after {E α : Type} (es : List E) (r : Run E α) : Run E α :=
  ⟨es ++ r.events, r.result⟩

section Program

variable {Ast Fields G : Type}

/-- Is the event a call of `ioutil.WriteFile`? -/
def Event.isWriteFile : Event Ast Fields G → Bool
  | .WriteFile _ _ _ => true
  | _ => false

/-- Is the event a call of `constructor.CollectConstructorFieldsFromAST`? -/
def Event.isCollect : Event Ast Fields G → Bool
  | .CollectConstructorFieldsFromAST _ _ => true
  | _ => false

/-- Is the event a call into the source loader or the file writer:
`internal.ParsePackage`, `internal.ParseFiles`,
`constructor.CollectConstructorFieldsFromAST` or `ioutil.WriteFile`? -/
def Event.isLoaderOrWrite : Event Ast Fields G → Bool
  | .ParsePackage _ => true
  | .ParseFiles _ => true
  | .CollectConstructorFieldsFromAST _ _ => true
  | .WriteFile _ _ _ => true
  | _ => false

/-! ## `isDirectory` and `getFilenameToGenerate` (lines 118-138) -/

/-- Source function `isDirectory`: `os.Stat`, then `log.Fatal` on an error
(the process ends with status 1), else `info.IsDir()`. -/
def isDirectory (w : World Ast Fields G) (name : String) :
    Run (Event Ast Fields G) (Except Exit Bool) :=
  match w.Stat name with
  | .error err => ⟨[.Stat name, .LogFatal err], .error (.exited 1)⟩
  | .ok isDir => ⟨[.Stat name], .ok isDir⟩

/-- Source function `getFilenameToGenerate`.  `args[0]` on an empty slice is a
run-time panic; `len(args) == 1 && isDirectory(args[0])` calls `isDirectory`
only when the length is 1. -/
def getFilenameToGenerate (w : World Ast Fields G) (f : Flags) (args : List String) :
    Run (Event Ast Fields G) (Except Exit String) :=
  if f.output ≠ "" then ⟨[], .ok f.output⟩
  else
    match args with
    | [] => ⟨[], .error .panicked⟩
    | [a] =>
      let d := isDirectory w a
      match d.result with
      | .error e => ⟨d.events, .error e⟩
      | .ok true => ⟨d.events, .ok (a ++ "/" ++ w.ToSnake f.typeName ++ "_gen.go")⟩
      | .ok false => ⟨d.events, .ok (w.Dir a ++ "/" ++ w.ToSnake f.typeName ++ "_gen.go")⟩
    | a :: _ :: _ => ⟨[], .ok (w.Dir a ++ "/" ++ w.ToSnake f.typeName ++ "_gen.go")⟩

/-! ## `main` (lines 30-106) -/

/-- The `for` loop of `main` (lines 77-95) from the root statement's current
statement list `root`: each strategy identifier constructs its generator, calls
`Generate()` and appends the statement (`AddStatements`); the `default` case is
`log.Fatalf`, which ends the process with status 1. -/
def addConstructors (w : World Ast Fields G) (typeName : String) (fields : Fields) :
    List String → List (Statement G) → Run (Event Ast Fields G) (Except Exit (List (Statement G)))
  | [], root => ⟨[], .ok root⟩
  | constructorType :: rest, root =>
    if constructorType = allArgsConstructorType then
      Run.after [.AllArgsGenerate typeName fields]
        (addConstructors w typeName fields rest
          (root ++ [.Generated (w.AllArgsGenerate typeName fields)]))
    else if constructorType = builderConstructorType then
      Run.after [.BuilderGenerate typeName fields]
        (addConstructors w typeName fields rest
          (root ++ [.Generated (w.BuilderGenerate typeName fields)]))
    else
      ⟨[.LogFatalf ("[error] unexpected constructor type has come [given="
          ++ constructorType ++ "]")], .error (.exited 1)⟩

/-- The root statement of lines 70-75: provenance comment, newline, package
clause, newline. -/
def rootStmt (f : Flags) (pkg : Package) : List (Statement G) :=
  [ .NewComment (" Code generated by gonstructor " ++ Join f.osArgs " " ++ "; DO NOT EDIT."),
    .NewNewline,
    .NewPackage pkg.Name,
    .NewNewline ]

/-- Lines 102-105 of `main`: compute the file name, write the file. -/
def writeCode (w : World Ast Fields G) (f : Flags) (args : List String) (code : String) :
    Run (Event Ast Fields G) Exit :=
  let name := getFilenameToGenerate w f args
  match name.result with
  | .error e => ⟨name.events, e⟩
  | .ok filename =>
    Run.after name.events
      (match w.WriteFile filename code 0o644 with
      | some err =>
        ⟨[.WriteFile filename code 0o644,
          .LogFatal ("[error] failed output generated code to a file: " ++ err)], .exited 1⟩
      | none => ⟨[.WriteFile filename code 0o644], .returned⟩)

/-- Lines 70-105 of `main`: build the root statement, run the strategy loop,
generate the code and write it. -/
def generateAndWrite (w : World Ast Fields G) (f : Flags) (constructorTypes args : List String)
    (pkg : Package) (fields : Fields) : Run (Event Ast Fields G) Exit :=
  let loop := addConstructors w f.typeName fields constructorTypes (rootStmt f pkg)
  match loop.result with
  | .error e => ⟨loop.events, e⟩
  | .ok stmts =>
    Run.after (loop.events ++ [.RootGenerate stmts])
      (match w.RootGenerate stmts with
      | .error err => ⟨[.LogFatal ("[error] failed to generate code: " ++ err)], .exited 1⟩
      | .ok code => writeCode w f args code)

/-- The positional arguments `main` works with (lines 50-53): `flag.Args()`,
or `["."]` when there are none. -/
def mainArgs (f : Flags) : List String :=
  if f.args.length ≤ 0 then ["."] else f.args

/-- Source function `main`, after `flag.Parse()` has produced `f`. -/
def main (w : World Ast Fields G) (f : Flags) : Run (Event Ast Fields G) Exit :=
  if f.shouldShowVersion then ⟨[.ShowVersion], .returned⟩
  else if f.typeName = "" then ⟨[.Usage], .exited 2⟩
  else
    match getConstructorTypes f.constructorTypes with
    | .error err => ⟨[.LogPrintf ("[error] " ++ err), .Usage], .exited 2⟩
    | .ok constructorTypes =>
      let args := mainArgs f
      Run.after [.ParsePackage args]
        (match w.ParsePackage args with
        | .error err =>
          ⟨[.LogFatal ("[error] failed to parse a package: " ++ err)], .exited 1⟩
        | .ok pkg =>
          Run.after [.ParseFiles pkg.GoFiles]
            (match w.ParseFiles pkg.GoFiles with
            | .error err =>
              ⟨[.LogFatal ("[error] failed to parse a file: " ++ err)], .exited 1⟩
            | .ok astFiles =>
              Run.after [.CollectConstructorFieldsFromAST f.typeName astFiles]
                (match w.CollectConstructorFieldsFromAST f.typeName astFiles with
                | .error err =>
                  ⟨[.LogFatal ("[error] failed to collect fields from files: " ++ err)],
                    .exited 1⟩
                | .ok fields => generateAndWrite w f constructorTypes args pkg fields)))

/-! ## Names for what the loop does on a known identifier -/

/-- The generator call the loop makes for a known strategy identifier. -/
def generatorEvent (typeName : String) (fields : Fields) (constructorType : String) :
    Event Ast Fields G :=
  if constructorType = allArgsConstructorType then .AllArgsGenerate typeName fields
  else .BuilderGenerate typeName fields

/-- The statement the loop appends for a known strategy identifier. -/
def generatedStatement (w : World Ast Fields G) (typeName : String) (fields : Fields)
    (constructorType : String) : Statement G :=
  if constructorType = allArgsConstructorType then .Generated (w.AllArgsGenerate typeName fields)
  else .Generated (w.BuilderGenerate typeName fields)

/-- The input of a generator call: the type name and field list the generator
was constructed with; `none` for every other event. -/
def Event.generatorInput : Event Ast Fields G → Option (String × Fields)
  | .AllArgsGenerate typeName fields => some (typeName, fields)
  | .BuilderGenerate typeName fields => some (typeName, fields)
  | _ => none

end Program

/-! ## A concrete world for evaluating the program -/

/-- A small file system and loader: `"."` and `"pkg"` are directories,
`"pkg/user.go"` is a file, nothing else exists; the package is `model` with one
file; generators name themselves and the type. -/
def sampleWorld : World Unit (List String) String :=
  { ParsePackage := fun _ => .ok { Name := "model", GoFiles := ["pkg/user.go"] }
    ParseFiles := fun _ => .ok ()
    CollectConstructorFieldsFromAST := fun _ _ => .ok ["name", "age"]
    AllArgsGenerate := fun t fs => "allArgs " ++ t ++ " " ++ Join fs ","
    BuilderGenerate := fun t fs => "builder " ++ t ++ " " ++ Join fs ","
    RootGenerate := fun stmts =>
      .ok (Join (stmts.map fun
        | .NewComment text => "//" ++ text
        | .NewNewline => ""
        | .NewPackage name => "package " ++ name
        | .Generated decl => decl) "\n")
    Stat := fun name =>
      if name = "." ∨ name = "pkg" then .ok true
      else if name = "pkg/user.go" then .ok false
      else .error ("stat " ++ name ++ ": no such file or directory")
    WriteFile := fun _ _ _ => none
    Dir := fun p => if p = "pkg/user.go" then "pkg" else "."
    ToSnake := fun s => if s = "User" then "user" else s }

/-- Flags of `gonstructor -type User -constructorTypes <cts> <args>`. -/
def sampleFlags (cts : String) (args : List String) : Flags :=
  { typeName := "User"
    output := ""
    constructorTypes := cts
    shouldShowVersion := false
    args := args
    osArgs := ["-type", "User", "-constructorTypes", cts] ++ args }

/-- Flags of `gonstructor -version -constructorTypes buildr`. -/
def versionFlags : Flags :=
  { typeName := ""
    output := ""
    constructorTypes := "buildr"
    shouldShowVersion := true
    args := []
    osArgs := ["-version", "-constructorTypes", "buildr"] }

/-! ## Facts about the split -/

theorem splitChars_ne_nil (sep : Char) (cs : List Char) : splitChars sep cs ≠ [] := by
  cases cs with
  | nil => simp [splitChars]
  | cons c cs =>
    simp only [splitChars]
    split
    · simp
    · split <;> simp

/-- Joining the pieces with the separator gives the text back. -/
theorem intercalate_splitChars (sep : Char) (cs : List Char) :
    List.intercalate [sep] (splitChars sep cs) = cs := by
  induction cs with
  | nil => simp [splitChars, List.intercalate]
  | cons c cs ih =>
    simp only [splitChars]
    split
    · next h =>
      subst h
      cases hp : splitChars c cs with
      | nil => exact absurd hp (splitChars_ne_nil _ _)
      | cons p ps =>
        rw [hp] at ih
        simp only [List.intercalate, List.intersperse, List.flatten] at ih ⊢
        simp [ih]
    · cases hp : splitChars sep cs with
      | nil => exact absurd hp (splitChars_ne_nil _ _)
      | cons p ps =>
        rw [hp] at ih
        cases ps with
        | nil => simpa [List.intercalate, List.intersperse] using ih
        | cons q qs => simpa [List.intercalate, List.intersperse] using ih

/-- No piece contains the separator. -/
theorem not_mem_of_mem_splitChars (sep : Char) (cs p : List Char)
    (hp : p ∈ splitChars sep cs) : sep ∉ p := by
  induction cs generalizing p with
  | nil => simp_all [splitChars]
  | cons c cs ih =>
    simp only [splitChars] at hp
    split at hp
    · rcases List.mem_cons.1 hp with h | h
      · simp [h]
      · exact ih p h
    · next hne =>
      cases hq : splitChars sep cs with
      | nil => exact absurd hq (splitChars_ne_nil _ _)
      | cons q qs =>
        rw [hq] at hp ih
        rcases List.mem_cons.1 hp with h | h
        · subst h
          have := ih q (List.mem_cons_self _ _)
          simp only [List.mem_cons, not_or]
          exact ⟨fun e => hne e.symm, this⟩
        · exact ih p (List.mem_cons_of_mem _ h)

theorem Split_ne_nil (s : String) (sep : Char) : Split s sep ≠ [] := by
  simp [Split, splitChars_ne_nil]

/-! ## Facts about `getConstructorTypes` -/

theorem firstUnexpected_eq_none_iff (typs : List String) :
    firstUnexpected typs = none ↔
      ∀ typ ∈ typs, typ = allArgsConstructorType ∨ typ = builderConstructorType := by
  induction typs with
  | nil => simp [firstUnexpected]
  | cons t ts ih =>
    simp only [firstUnexpected, List.mem_cons, forall_eq_or_imp]
    split
    · next h => simp; intro h1; rcases h1 with h1 | h1 <;> simp_all
    · next h =>
      rw [ih]
      have : t = allArgsConstructorType ∨ t = builderConstructorType := by
        by_cases h1 : t = allArgsConstructorType
        · exact Or.inl h1
        · by_cases h2 : t = builderConstructorType
          · exact Or.inr h2
          · exact absurd ⟨h1, h2⟩ h
      simp [this]

theorem getConstructorTypes_eq_ok_iff (s : String) (typs : List String) :
    getConstructorTypes s = .ok typs ↔
      typs = Split s ',' ∧
        ∀ typ ∈ typs, typ = allArgsConstructorType ∨ typ = builderConstructorType := by
  cases h : firstUnexpected (Split s ',') with
  | none =>
    simp only [getConstructorTypes, h, Except.ok.injEq]
    constructor
    · intro e
      subst e
      exact ⟨rfl, (firstUnexpected_eq_none_iff _).1 h⟩
    · intro e
      exact e.1.symm
  | some err =>
    simp only [getConstructorTypes, h]
    constructor
    · intro e
      cases e
    · rintro ⟨e, hall⟩
      subst e
      rw [(firstUnexpected_eq_none_iff _).2 hall] at h
      cases h

theorem getConstructorTypes_error_iff (s : String) :
    (∃ err, getConstructorTypes s = .error err) ↔
      ∃ typ ∈ Split s ',', typ ≠ allArgsConstructorType ∧ typ ≠ builderConstructorType := by
  constructor
  · rintro ⟨err, h⟩
    by_contra hcon
    have hall : ∀ typ ∈ Split s ',', typ = allArgsConstructorType ∨ typ = builderConstructorType := by
      intro typ hmem
      by_contra hn
      exact hcon ⟨typ, hmem, fun e => hn (Or.inl e), fun e => hn (Or.inr e)⟩
    have := (getConstructorTypes_eq_ok_iff s (Split s ',')).2 ⟨rfl, hall⟩
    rw [h] at this
    cases this
  · rintro ⟨typ, hmem, h1, h2⟩
    cases h : getConstructorTypes s with
    | error err => exact ⟨err, rfl⟩
    | ok typs =>
      obtain ⟨e, hall⟩ := (getConstructorTypes_eq_ok_iff s typs).1 h
      subst e
      rcases hall typ hmem with h' | h'
      · exact absurd h' h1
      · exact absurd h' h2

/-- A duplicate-free list over two values has at most two elements. -/
theorem length_le_two_of_nodup {α : Type} (a b : α) (l : List α) (hl : l.Nodup)
    (hall : ∀ x ∈ l, x = a ∨ x = b) : l.length ≤ 2 := by
  match l, hl, hall with
  | [], _, _ => simp
  | [_], _, _ => simp
  | [_, _], _, _ => simp
  | x :: y :: z :: r, hl, hall =>
    exfalso
    have hx := hall x (by simp)
    have hy := hall y (by simp)
    have hz := hall z (by simp)
    simp only [List.nodup_cons, List.mem_cons, not_or] at hl
    obtain ⟨⟨hxy, hxz, -⟩, ⟨hyz, -⟩, -⟩ := hl
    rcases hx with rfl | rfl <;> rcases hy with rfl | rfl <;> rcases hz with rfl | rfl <;>
      simp_all

/-! ## Claims about `getConstructorTypes` -/

/-- C1: for every value `s` of the `-constructorTypes` flag,
`getConstructorTypes` returns an error if and only if at least one of the pieces
of `s` split on `","` is neither exactly `"allArgs"` nor exactly `"builder"`;
when it returns no error, the returned list is exactly the list of pieces. -/
theorem getConstructorTypes_error_iff_unknown_piece (s : String) :
    ((∃ err, getConstructorTypes s = .error err) ↔
        ∃ piece ∈ Split s ',', piece ≠ "allArgs" ∧ piece ≠ "builder") ∧
      ∀ typs, getConstructorTypes s = .ok typs → typs = Split s ',' :=
  ⟨getConstructorTypes_error_iff s, fun typs h => ((getConstructorTypes_eq_ok_iff s typs).1 h).1⟩

/-- Witness for C1 at the flag value `allArgs,builder`. -/
theorem getConstructorTypes_error_iff_unknown_piece_witness :
    getConstructorTypes "allArgs,builder" = .ok ["allArgs", "builder"] ∧
      ["allArgs", "builder"] = Split "allArgs,builder" ',' :=
  ⟨by decide,
    (getConstructorTypes_error_iff_unknown_piece "allArgs,builder").2 _ (by decide)⟩

/-- C3, as stated, fails: every piece of the flag value `all-args` is
`"all-args"` or `"builder"`, yet `getConstructorTypes` rejects it, and the
default flag value is not `"all-args"`. -/
theorem getConstructorTypes_rejects_all_args_hyphenated :
    (∀ piece ∈ Split "all-args" ',', piece = "all-args" ∨ piece = "builder") ∧
      getConstructorTypes "all-args" =
        .error "unexpected constructor type has come [given=all-args]" ∧
      defaultFlags.constructorTypes ≠ "all-args" := by
  decide

/-- C3, amended: the accepted strategy identifiers are the closed set
`{"allArgs", "builder"}`: `getConstructorTypes` succeeds exactly when every
piece of the flag value is `"allArgs"` or `"builder"`; the value `"allArgs"` is
accepted and yields the single all-args strategy; the default flag value is
`"allArgs"` alone. -/
theorem getConstructorTypes_ok_iff_closed_set :
    (∀ s, (∃ typs, getConstructorTypes s = .ok typs) ↔
        ∀ piece ∈ Split s ',', piece = "allArgs" ∨ piece = "builder") ∧
      getConstructorTypes "allArgs" = .ok [allArgsConstructorType] ∧
      defaultFlags.constructorTypes = "allArgs" ∧
      getConstructorTypes defaultFlags.constructorTypes = .ok [allArgsConstructorType] := by
  refine ⟨fun s => ⟨?_, ?_⟩, by decide, by decide, by decide⟩
  · rintro ⟨typs, h⟩
    obtain ⟨e, hall⟩ := (getConstructorTypes_eq_ok_iff s typs).1 h
    subst e
    exact hall
  · intro hall
    exact ⟨_, (getConstructorTypes_eq_ok_iff s _).2 ⟨rfl, hall⟩⟩

/-- Witness for C3 (amended) at the flag value `builder,allArgs`. -/
theorem getConstructorTypes_ok_iff_closed_set_witness :
    ∃ typs, getConstructorTypes "builder,allArgs" = .ok typs :=
  (getConstructorTypes_ok_iff_closed_set.1 "builder,allArgs").2 (by decide)

/-- C6: whenever `getConstructorTypes` returns no error the returned list is
non-empty and every element of it is a known strategy identifier; the empty
flag value is rejected with an error. -/
theorem getConstructorTypes_ok_nonempty_known :
    (∀ s typs, getConstructorTypes s = .ok typs →
        typs ≠ [] ∧
          ∀ typ ∈ typs, typ = allArgsConstructorType ∨ typ = builderConstructorType) ∧
      ∃ err, getConstructorTypes "" = .error err := by
  refine ⟨fun s typs h => ?_,
    ⟨"unexpected constructor type has come [given=]", by decide⟩⟩
  obtain ⟨e, hall⟩ := (getConstructorTypes_eq_ok_iff s typs).1 h
  subst e
  exact ⟨Split_ne_nil s ',', hall⟩

/-- Witness for C6 at the flag value `builder`. -/
theorem getConstructorTypes_ok_nonempty_known_witness :
    getConstructorTypes "builder" = .ok ["builder"] ∧ ["builder"] ≠ [] ∧
      ∀ typ ∈ ["builder"], typ = allArgsConstructorType ∨ typ = builderConstructorType :=
  ⟨by decide, getConstructorTypes_ok_nonempty_known.1 "builder" ["builder"] (by decide)⟩

/-- C9, as stated, fails: on the flag value `allArgs,allArgs` the call
succeeds and the returned list holds `"allArgs"` twice. -/
theorem getConstructorTypes_keeps_duplicates :
    getConstructorTypes "allArgs,allArgs" = .ok ["allArgs", "allArgs"] ∧
      List.count "allArgs" ["allArgs", "allArgs"] = 2 ∧
      ¬ (["allArgs", "allArgs"] : List String).Nodup := by
  decide

/-- C9, amended: the requested strategies form an ordered list in which
nothing is removed: on success every identifier occurs in the returned list as
often as among the pieces of the flag value, so the list is duplicate-free
exactly when the pieces are, and a duplicate-free result has at most two
elements. -/
theorem getConstructorTypes_ok_count (s : String) (typs : List String)
    (h : getConstructorTypes s = .ok typs) :
    (∀ typ, typs.count typ = (Split s ',').count typ) ∧
      (typs.Nodup ↔ (Split s ',').Nodup) ∧
      (typs.Nodup → typs.length ≤ 2) := by
  obtain ⟨e, hall⟩ := (getConstructorTypes_eq_ok_iff s typs).1 h
  subst e
  exact ⟨fun _ => rfl, Iff.rfl, fun hn => length_le_two_of_nodup _ _ _ hn hall⟩

/-- Witness for C9 (amended) at the flag value `builder,allArgs,builder`. -/
theorem getConstructorTypes_ok_count_witness :
    getConstructorTypes "builder,allArgs,builder" = .ok ["builder", "allArgs", "builder"] ∧
      (∀ typ, ["builder", "allArgs", "builder"].count typ =
        (Split "builder,allArgs,builder" ',').count typ) :=
  ⟨by decide,
    (getConstructorTypes_ok_count "builder,allArgs,builder"
      ["builder", "allArgs", "builder"] (by decide)).1⟩

/-! ## Facts about the strategy loop and the file name -/

section MainFacts

variable {Ast Fields G : Type}

/-- On a list of known identifiers the loop never reaches its `default` case:
it records one generator call per identifier and appends one statement per
identifier, in order. -/
theorem addConstructors_of_known (w : World Ast Fields G) (typeName : String) (fields : Fields)
    (cts : List String) (root : List (Statement G))
    (hall : ∀ c ∈ cts, c = allArgsConstructorType ∨ c = builderConstructorType) :
    addConstructors w typeName fields cts root =
      ⟨cts.map (generatorEvent typeName fields),
        .ok (root ++ cts.map (generatedStatement w typeName fields))⟩ := by
  induction cts generalizing root with
  | nil => simp [addConstructors]
  | cons c cs ih =>
    have hcs : ∀ c ∈ cs, c = allArgsConstructorType ∨ c = builderConstructorType :=
      fun x hx => hall x (List.mem_cons_of_mem _ hx)
    by_cases h1 : c = allArgsConstructorType
    · simp [addConstructors, h1, ih _ hcs, Run.after, generatorEvent, generatedStatement]
    · have h2 : c = builderConstructorType := (hall c (List.mem_cons_self _ _)).resolve_left h1
      have h3 : ¬ builderConstructorType = allArgsConstructorType := by decide
      simp [addConstructors, h2, h3, ih _ hcs, Run.after, generatorEvent, generatedStatement]

/-- The only events of `getFilenameToGenerate` are `os.Stat` calls and
`log.Fatal` messages. -/
theorem getFilenameToGenerate_events (w : World Ast Fields G) (f : Flags) (args : List String) :
    ∀ ev ∈ (getFilenameToGenerate w f args).events,
      (∃ name, ev = Event.Stat name) ∨ ∃ msg, ev = Event.LogFatal msg := by
  unfold getFilenameToGenerate isDirectory
  intro ev
  split
  · simp
  · split
    · simp
    · next a =>
      cases w.Stat a with
      | error err => simp; rintro (h | h) <;> simp [h]
      | ok d => cases d <;> simp <;> intro h <;> simp [h]
    · simp

/-- When `getFilenameToGenerate` does not return, the process did not end by
returning from `main`. -/
theorem getFilenameToGenerate_error (w : World Ast Fields G) (f : Flags) (args : List String)
    (e : Exit) (h : (getFilenameToGenerate w f args).result = .error e) : e ≠ .returned := by
  unfold getFilenameToGenerate isDirectory at h
  split at h
  · cases h
  · split at h
    · cases h; simp
    · next a =>
      cases hs : w.Stat a with
      | error err => simp [hs] at h; subst h; simp
      | ok d => cases d <;> simp [hs] at h
    · cases h

/-- The paths through lines 102-105. -/
theorem writeCode_cases (w : World Ast Fields G) (f : Flags) (args : List String)
    (code : String) :
    (∃ e, (getFilenameToGenerate w f args).result = .error e ∧ e ≠ .returned ∧
        writeCode w f args code = ⟨(getFilenameToGenerate w f args).events, e⟩) ∨
    (∃ name, (getFilenameToGenerate w f args).result = .ok name ∧
      ((∃ err, w.WriteFile name code 0o644 = some err ∧
          writeCode w f args code =
            ⟨(getFilenameToGenerate w f args).events ++
              [.WriteFile name code 0o644,
                .LogFatal ("[error] failed output generated code to a file: " ++ err)],
              .exited 1⟩) ∨
        (w.WriteFile name code 0o644 = none ∧
          writeCode w f args code =
            ⟨(getFilenameToGenerate w f args).events ++ [.WriteFile name code 0o644],
              .returned⟩))) := by
  unfold writeCode
  cases hr : (getFilenameToGenerate w f args).result with
  | error e => exact Or.inl ⟨e, rfl, getFilenameToGenerate_error w f args e hr, by simp [hr]⟩
  | ok name =>
    refine Or.inr ⟨name, rfl, ?_⟩
    cases hw : w.WriteFile name code 0o644 with
    | some err => exact Or.inl ⟨err, rfl, by simp [hr, hw, Run.after]⟩
    | none => exact Or.inr ⟨rfl, by simp [hr, hw, Run.after]⟩

/-- The paths through lines 70-105 when every identifier is known: the
generator calls, the root statement's `Generate`, then one of four endings. -/
theorem generateAndWrite_cases (w : World Ast Fields G) (f : Flags) (cts args : List String)
    (pkg : Package) (fields : Fields)
    (hall : ∀ c ∈ cts, c = allArgsConstructorType ∨ c = builderConstructorType) :
    ∃ tail : Run (Event Ast Fields G) Exit, generateAndWrite w f cts args pkg fields =
        ⟨cts.map (generatorEvent f.typeName fields) ++
          .RootGenerate (rootStmt f pkg ++ cts.map (generatedStatement w f.typeName fields)) ::
            tail.events, tail.result⟩ ∧
      ((∃ err, w.RootGenerate (rootStmt f pkg ++ cts.map (generatedStatement w f.typeName fields))
            = .error err ∧
          tail = ⟨[.LogFatal ("[error] failed to generate code: " ++ err)], .exited 1⟩) ∨
        ∃ code, w.RootGenerate (rootStmt f pkg ++ cts.map (generatedStatement w f.typeName fields))
            = .ok code ∧
          ((∃ e, (getFilenameToGenerate w f args).result = .error e ∧ e ≠ .returned ∧
              tail = ⟨(getFilenameToGenerate w f args).events, e⟩) ∨
            ∃ name, (getFilenameToGenerate w f args).result = .ok name ∧
              ((∃ err, w.WriteFile name code 0o644 = some err ∧
                  tail = ⟨(getFilenameToGenerate w f args).events ++
                    [.WriteFile name code 0o644,
                      .LogFatal ("[error] failed output generated code to a file: " ++ err)],
                    .exited 1⟩) ∨
                (w.WriteFile name code 0o644 = none ∧
                  tail = ⟨(getFilenameToGenerate w f args).events ++
                    [.WriteFile name code 0o644], .returned⟩)))) ∧
      ∀ ev ∈ tail.events, (∃ name, ev = .Stat name) ∨ (∃ msg, ev = .LogFatal msg) ∨
        ∃ name code, ev = .WriteFile name code 0o644 := by
  have key : ∀ ev ∈ (getFilenameToGenerate w f args).events,
      (∃ name, ev = Event.Stat name) ∨ (∃ msg, ev = Event.LogFatal msg) ∨
        ∃ name code, ev = Event.WriteFile name code 0o644 := by
    intro ev h
    rcases getFilenameToGenerate_events w f args ev h with h | h
    · exact Or.inl h
    · exact Or.inr (Or.inl h)
  unfold generateAndWrite
  simp only [addConstructors_of_known _ _ _ _ _ hall]
  cases hg : w.RootGenerate (rootStmt f pkg ++ cts.map (generatedStatement w f.typeName fields)) with
  | error err => exact ⟨_, by simp [Run.after], Or.inl ⟨err, rfl, rfl⟩, by simp⟩
  | ok code =>
    refine ⟨writeCode w f args code, by simp [Run.after], Or.inr ⟨code, rfl, ?_⟩, ?_⟩
    · rcases writeCode_cases w f args code with
        ⟨e, h1, h2, h3⟩ | ⟨name, h1, ⟨err, h2, h3⟩ | ⟨h2, h3⟩⟩
      · exact Or.inl ⟨e, h1, h2, h3⟩
      · exact Or.inr ⟨name, h1, Or.inl ⟨err, h2, h3⟩⟩
      · exact Or.inr ⟨name, h1, Or.inr ⟨h2, h3⟩⟩
    · intro ev hev
      rcases writeCode_cases w f args code with
        ⟨e, -, -, h3⟩ | ⟨name, -, ⟨err, -, h3⟩ | ⟨-, h3⟩⟩
      · rw [h3] at hev
        exact key ev hev
      · rw [h3] at hev
        simp only [List.mem_append, List.mem_cons, List.mem_singleton, List.not_mem_nil,
          or_false] at hev
        rcases hev with h | rfl | rfl
        · exact key ev h
        · exact Or.inr (Or.inr ⟨_, _, rfl⟩)
        · exact Or.inr (Or.inl ⟨_, rfl⟩)
      · rw [h3] at hev
        simp only [List.mem_append, List.mem_singleton] at hev
        rcases hev with h | rfl
        · exact key ev h
        · exact Or.inr (Or.inr ⟨_, _, rfl⟩)

/-- Every event of the loop on known identifiers is a generator call with the
given type name and fields. -/
theorem generatorInput_of_mem_map (typeName : String) (fields : Fields) (cts : List String)
    (ev : Event Ast Fields G) (h : ev ∈ cts.map (generatorEvent typeName fields)) :
    ev.generatorInput = some (typeName, fields) := by
  obtain ⟨c, -, rfl⟩ := List.mem_map.1 h
  unfold generatorEvent
  split <;> rfl

/-- The paths through lines 30-68. -/
theorem main_cases (w : World Ast Fields G) (f : Flags) :
    (f.shouldShowVersion = true ∧ main w f = ⟨[.ShowVersion], .returned⟩) ∨
    (f.shouldShowVersion = false ∧ f.typeName = "" ∧ main w f = ⟨[.Usage], .exited 2⟩) ∨
    (f.shouldShowVersion = false ∧ f.typeName ≠ "" ∧
      ∃ err, getConstructorTypes f.constructorTypes = .error err ∧
        main w f = ⟨[.LogPrintf ("[error] " ++ err), .Usage], .exited 2⟩) ∨
    (f.shouldShowVersion = false ∧ f.typeName ≠ "" ∧
      ∃ cts, getConstructorTypes f.constructorTypes = .ok cts ∧
        ((∃ err, w.ParsePackage (mainArgs f) = .error err ∧
            main w f =
              ⟨[.ParsePackage (mainArgs f),
                .LogFatal ("[error] failed to parse a package: " ++ err)], .exited 1⟩) ∨
          ∃ pkg, w.ParsePackage (mainArgs f) = .ok pkg ∧
            ((∃ err, w.ParseFiles pkg.GoFiles = .error err ∧
                main w f =
                  ⟨[.ParsePackage (mainArgs f), .ParseFiles pkg.GoFiles,
                    .LogFatal ("[error] failed to parse a file: " ++ err)], .exited 1⟩) ∨
              ∃ astFiles, w.ParseFiles pkg.GoFiles = .ok astFiles ∧
                ((∃ err, w.CollectConstructorFieldsFromAST f.typeName astFiles = .error err ∧
                    main w f =
                      ⟨[.ParsePackage (mainArgs f), .ParseFiles pkg.GoFiles,
                        .CollectConstructorFieldsFromAST f.typeName astFiles,
                        .LogFatal ("[error] failed to collect fields from files: " ++ err)],
                        .exited 1⟩) ∨
                  ∃ fields, w.CollectConstructorFieldsFromAST f.typeName astFiles = .ok fields ∧
                    main w f =
                      Run.after [.ParsePackage (mainArgs f), .ParseFiles pkg.GoFiles,
                        .CollectConstructorFieldsFromAST f.typeName astFiles]
                        (generateAndWrite w f cts (mainArgs f) pkg fields))))) := by
  unfold main
  by_cases hv : f.shouldShowVersion = true
  · exact Or.inl ⟨hv, by simp [hv]⟩
  have hv' : f.shouldShowVersion = false := by simpa using hv
  refine Or.inr ?_
  by_cases ht : f.typeName = ""
  · exact Or.inl ⟨hv', ht, by simp [hv', ht]⟩
  refine Or.inr ?_
  cases hct : getConstructorTypes f.constructorTypes with
  | error err => exact Or.inl ⟨hv', ht, err, rfl, by simp [hv', ht]⟩
  | ok cts =>
    refine Or.inr ⟨hv', ht, cts, rfl, ?_⟩
    simp only [hv', ht, Bool.false_eq_true, if_false]
    cases hpp : w.ParsePackage (mainArgs f) with
    | error err => exact Or.inl ⟨err, rfl, by simp [Run.after]⟩
    | ok pkg =>
      refine Or.inr ⟨pkg, rfl, ?_⟩
      cases hpf : w.ParseFiles pkg.GoFiles with
      | error err => exact Or.inl ⟨err, rfl, by simp [hpf, Run.after]⟩
      | ok astFiles =>
        refine Or.inr ⟨astFiles, rfl, ?_⟩
        cases hcc : w.CollectConstructorFieldsFromAST f.typeName astFiles with
        | error err => exact Or.inl ⟨err, rfl, by simp [hpf, hcc, Run.after]⟩
        | ok fields => exact Or.inr ⟨fields, rfl, by simp [hpf, hcc, Run.after]⟩

/-- In a run that gets past the field collector, the events are the three
loader calls, the generator calls, the root statement's `Generate`, and one of
the four endings of `generateAndWrite_cases`. -/
theorem main_eq_of_collected (w : World Ast Fields G) (f : Flags) (cts : List String)
    (pkg : Package) (astFiles : Ast) (fields : Fields) (tail : Run (Event Ast Fields G) Exit)
    (hm : main w f =
      Run.after [.ParsePackage (mainArgs f), .ParseFiles pkg.GoFiles,
        .CollectConstructorFieldsFromAST f.typeName astFiles]
        (generateAndWrite w f cts (mainArgs f) pkg fields))
    (hg : generateAndWrite w f cts (mainArgs f) pkg fields =
        ⟨cts.map (generatorEvent f.typeName fields) ++
          .RootGenerate (rootStmt f pkg ++ cts.map (generatedStatement w f.typeName fields)) ::
            tail.events, tail.result⟩) :
    main w f =
      ⟨[.ParsePackage (mainArgs f), .ParseFiles pkg.GoFiles,
          .CollectConstructorFieldsFromAST f.typeName astFiles] ++
        (cts.map (generatorEvent f.typeName fields) ++
          .RootGenerate (rootStmt f pkg ++ cts.map (generatedStatement w f.typeName fields)) ::
            tail.events), tail.result⟩ := by
  rw [hm, hg]
  rfl

theorem LogFatalf_not_mem_map (typeName : String) (fields : Fields) (cts : List String)
    (msg : String) :
    Event.LogFatalf msg ∉ cts.map (generatorEvent typeName fields : String → Event Ast Fields G) := by
  intro h
  have := generatorInput_of_mem_map _ _ _ _ h
  simp [Event.generatorInput] at this

theorem LogFatalf_not_mem_filename (w : World Ast Fields G) (f : Flags) (args : List String)
    (msg : String) : Event.LogFatalf msg ∉ (getFilenameToGenerate w f args).events := by
  intro h
  rcases getFilenameToGenerate_events w f args _ h with ⟨_, h⟩ | ⟨_, h⟩ <;> cases h

/-- A test that fails on generator calls fails on every event of the loop. -/
theorem eq_false_of_mem_map (p : Event Ast Fields G → Bool) (typeName : String)
    (fields : Fields) (cts : List String)
    (hA : p (.AllArgsGenerate typeName fields) = false)
    (hB : p (.BuilderGenerate typeName fields) = false) :
    ∀ ev ∈ cts.map (generatorEvent typeName fields), p ev = false := by
  intro ev h
  obtain ⟨c, -, rfl⟩ := List.mem_map.1 h
  unfold generatorEvent
  split <;> assumption

/-- A test that fails on `os.Stat` calls and `log.Fatal` messages fails on
every event of `getFilenameToGenerate`. -/
theorem eq_false_of_mem_filename (p : Event Ast Fields G → Bool) (w : World Ast Fields G)
    (f : Flags) (args : List String)
    (hS : ∀ name, p (.Stat name) = false) (hL : ∀ msg, p (.LogFatal msg) = false) :
    ∀ ev ∈ (getFilenameToGenerate w f args).events, p ev = false := by
  intro ev h
  rcases getFilenameToGenerate_events w f args ev h with ⟨n, rfl⟩ | ⟨m, rfl⟩
  · exact hS n
  · exact hL m

theorem countP_eq_zero_of_forall {α : Type} (p : α → Bool) (l : List α)
    (h : ∀ a ∈ l, p a = false) : l.countP p = 0 := by
  rw [List.countP_eq_zero]
  intro a ha
  simp [h a ha]

/-! ## Claims about `main` -/

/-- C10: the `default` branch of the strategy switch in `main` is unreachable:
every element of the list `main` iterates over (the successful result of
`getConstructorTypes`) equals `allArgsConstructorType` or
`builderConstructorType`, the loop over that list ends normally, and no run of
`main` executes the `log.Fatalf` inside the loop. -/
theorem main_default_case_unreachable (w : World Ast Fields G) (f : Flags) :
    (∀ cts, getConstructorTypes f.constructorTypes = .ok cts →
        (∀ c ∈ cts, c = allArgsConstructorType ∨ c = builderConstructorType) ∧
          ∀ fields root, ∃ stmts,
            (addConstructors w f.typeName fields cts root).result = .ok stmts) ∧
      ∀ msg, Event.LogFatalf msg ∉ (main w f).events := by
  constructor
  · intro cts h
    have hall := ((getConstructorTypes_eq_ok_iff _ _).1 h).2
    refine ⟨hall, fun fields root =>
      ⟨root ++ cts.map (generatedStatement w f.typeName fields), ?_⟩⟩
    rw [addConstructors_of_known _ _ _ _ _ hall]
  · intro msg
    rcases main_cases w f with ⟨-, hm⟩ | ⟨-, -, hm⟩ | ⟨-, -, err, -, hm⟩ |
      ⟨-, -, cts, hct, ⟨err, -, hm⟩ | ⟨pkg, -, ⟨err, -, hm⟩ | ⟨astFiles, -, ⟨err, -, hm⟩ |
        ⟨fields, -, hm⟩⟩⟩⟩
    · simp [hm]
    · simp [hm]
    · simp [hm]
    · simp [hm]
    · simp [hm]
    · simp [hm]
    · have hall := ((getConstructorTypes_eq_ok_iff _ _).1 hct).2
      obtain ⟨tail, hg, ht, -⟩ := generateAndWrite_cases w f cts (mainArgs f) pkg fields hall
      rw [main_eq_of_collected w f cts pkg astFiles fields tail hm hg]
      have h1 : Event.LogFatalf msg ∉
          cts.map (generatorEvent f.typeName fields : String → Event Ast Fields G) :=
        LogFatalf_not_mem_map f.typeName fields cts msg
      have h2 := LogFatalf_not_mem_filename w f (mainArgs f) msg
      rcases ht with ⟨err, -, rfl⟩ | ⟨code, -, ⟨e, -, -, rfl⟩ | ⟨name, -, ⟨err, -, rfl⟩ | ⟨-, rfl⟩⟩⟩ <;>
        simp [h1, h2]

/-- C5: `ioutil.WriteFile` is called at most once per run, and a call of it
comes only after every stage succeeded: the type name is non-empty, strategy
validation, `internal.ParsePackage`, `internal.ParseFiles`,
`constructor.CollectConstructorFieldsFromAST` and the root statement's
`Generate` returned no error, their calls precede the write, the written text
is the generated code, and nothing but a `log.Fatal` message follows. -/
theorem main_writes_only_after_success (w : World Ast Fields G) (f : Flags) :
    (main w f).events.countP Event.isWriteFile ≤ 1 ∧
      ∀ name code perm, Event.WriteFile name code perm ∈ (main w f).events →
        f.shouldShowVersion = false ∧ f.typeName ≠ "" ∧
          ∃ cts pkg astFiles fields stmts,
            getConstructorTypes f.constructorTypes = .ok cts ∧
            w.ParsePackage (mainArgs f) = .ok pkg ∧
            w.ParseFiles pkg.GoFiles = .ok astFiles ∧
            w.CollectConstructorFieldsFromAST f.typeName astFiles = .ok fields ∧
            w.RootGenerate stmts = .ok code ∧
            ∃ before after,
              (main w f).events = before ++ Event.WriteFile name code perm :: after ∧
              Event.ParsePackage (mainArgs f) ∈ before ∧
              Event.ParseFiles pkg.GoFiles ∈ before ∧
              Event.CollectConstructorFieldsFromAST f.typeName astFiles ∈ before ∧
              Event.RootGenerate stmts ∈ before ∧
              (∀ ev ∈ before, ev.isWriteFile = false) ∧
              ∀ ev ∈ after, ∃ msg, ev = Event.LogFatal msg := by
  rcases main_cases w f with ⟨-, hm⟩ | ⟨-, -, hm⟩ | ⟨-, -, err, -, hm⟩ |
    ⟨hv, hn, cts, hct, ⟨err, -, hm⟩ | ⟨pkg, hpp, ⟨err, -, hm⟩ | ⟨astFiles, hpf, ⟨err, -, hm⟩ |
      ⟨fields, hcc, hm⟩⟩⟩⟩
  · simp [hm, Event.isWriteFile]
  · simp [hm, Event.isWriteFile]
  · simp [hm, Event.isWriteFile]
  · simp [hm, Event.isWriteFile]
  · simp [hm, Event.isWriteFile]
  · simp [hm, Event.isWriteFile]
  · have hall := ((getConstructorTypes_eq_ok_iff _ _).1 hct).2
    obtain ⟨tail, hg, ht, -⟩ := generateAndWrite_cases w f cts (mainArgs f) pkg fields hall
    rw [main_eq_of_collected w f cts pkg astFiles fields tail hm hg]
    have g1 := eq_false_of_mem_map (Event.isWriteFile : Event Ast Fields G → Bool) f.typeName fields cts
      rfl rfl
    have g2 := eq_false_of_mem_filename Event.isWriteFile w f (mainArgs f)
      (fun _ => rfl) (fun _ => rfl)
    have c1 := countP_eq_zero_of_forall _ _ g1
    have c2 := countP_eq_zero_of_forall _ _ g2
    have m1 : ∀ name code perm, Event.WriteFile name code perm ∉
        cts.map (generatorEvent f.typeName fields : String → Event Ast Fields G) :=
      fun _ _ _ h => by simpa [Event.isWriteFile] using g1 _ h
    have m2 : ∀ name code perm, Event.WriteFile name code perm ∉
        (getFilenameToGenerate w f (mainArgs f)).events :=
      fun _ _ _ h => by simpa [Event.isWriteFile] using g2 _ h
    rcases ht with ⟨err, -, rfl⟩ | ⟨code, hrg, ⟨e, -, -, rfl⟩ | ⟨name, -, ⟨err, -, rfl⟩ | ⟨-, rfl⟩⟩⟩
    · simp [List.countP_cons, List.countP_append, Event.isWriteFile, c1, m1]
    · simp [List.countP_cons, List.countP_append, Event.isWriteFile, c1, c2, m1, m2]
    · refine ⟨by simp [List.countP_cons, List.countP_append, Event.isWriteFile, c1, c2], ?_⟩
      intro name' code' perm' hmem
      have : name' = name ∧ code' = code ∧ perm' = 0o644 := by
        simpa [m1, m2] using hmem
      obtain ⟨rfl, rfl, rfl⟩ := this
      refine ⟨hv, hn, cts, pkg, astFiles, fields, _, hct, hpp, hpf, hcc, hrg,
        [.ParsePackage (mainArgs f), .ParseFiles pkg.GoFiles,
          .CollectConstructorFieldsFromAST f.typeName astFiles] ++
          (cts.map (generatorEvent f.typeName fields) ++
            .RootGenerate (rootStmt f pkg ++ cts.map (generatedStatement w f.typeName fields)) ::
              (getFilenameToGenerate w f (mainArgs f)).events),
        [.LogFatal ("[error] failed output generated code to a file: " ++ err)],
        by simp, by simp, by simp, by simp, by simp, ?_, by simp⟩
      intro ev hev
      simp only [List.mem_append, List.mem_cons, List.mem_singleton, List.not_mem_nil,
        or_false] at hev
      rcases hev with (rfl | rfl | rfl) | h | rfl | h
      · rfl
      · rfl
      · rfl
      · exact g1 _ h
      · rfl
      · exact g2 _ h
    · refine ⟨by simp [List.countP_cons, List.countP_append, Event.isWriteFile, c1, c2], ?_⟩
      intro name' code' perm' hmem
      have : name' = name ∧ code' = code ∧ perm' = 0o644 := by
        simpa [m1, m2] using hmem
      obtain ⟨rfl, rfl, rfl⟩ := this
      refine ⟨hv, hn, cts, pkg, astFiles, fields, _, hct, hpp, hpf, hcc, hrg,
        [.ParsePackage (mainArgs f), .ParseFiles pkg.GoFiles,
          .CollectConstructorFieldsFromAST f.typeName astFiles] ++
          (cts.map (generatorEvent f.typeName fields) ++
            .RootGenerate (rootStmt f pkg ++ cts.map (generatedStatement w f.typeName fields)) ::
              (getFilenameToGenerate w f (mainArgs f)).events),
        [], by simp, by simp, by simp, by simp, by simp, ?_, by simp⟩
      intro ev hev
      simp only [List.mem_append, List.mem_cons, List.mem_singleton, List.not_mem_nil,
        or_false] at hev
      rcases hev with (rfl | rfl | rfl) | h | rfl | h
      · rfl
      · rfl
      · rfl
      · exact g1 _ h
      · rfl
      · exact g2 _ h

/-- C8: in every run of `main` the field collector
(`constructor.CollectConstructorFieldsFromAST`) is invoked at most once, and
every generator constructed in the run, all-args or builder, receives the type
name of the `-type` flag and the field list that collector call returned, so any
two generators of one run receive identical type name and fields. -/
theorem main_collects_once (w : World Ast Fields G) (f : Flags) :
    (main w f).events.countP Event.isCollect ≤ 1 ∧
      (∀ ev ∈ (main w f).events, ∀ typeName fields,
        ev.generatorInput = some (typeName, fields) →
          typeName = f.typeName ∧
            ∃ astFiles,
              Event.CollectConstructorFieldsFromAST f.typeName astFiles ∈ (main w f).events ∧
              w.CollectConstructorFieldsFromAST f.typeName astFiles = .ok fields) ∧
      ∀ ev ∈ (main w f).events, ∀ ev' ∈ (main w f).events, ∀ input input',
        ev.generatorInput = some input → ev'.generatorInput = some input' → input = input' := by
  rcases main_cases w f with ⟨-, hm⟩ | ⟨-, -, hm⟩ | ⟨-, -, err, -, hm⟩ |
    ⟨-, -, cts, hct, ⟨err, -, hm⟩ | ⟨pkg, -, ⟨err, -, hm⟩ | ⟨astFiles, -, ⟨err, -, hm⟩ |
      ⟨fields, hcc, hm⟩⟩⟩⟩
  · simp [hm, Event.isCollect, Event.generatorInput]
  · simp [hm, Event.isCollect, Event.generatorInput]
  · simp [hm, Event.isCollect, Event.generatorInput]
  · simp [hm, Event.isCollect, Event.generatorInput]
  · simp [hm, Event.isCollect, Event.generatorInput]
  · simp [hm, Event.isCollect, Event.generatorInput]
  · have hall := ((getConstructorTypes_eq_ok_iff _ _).1 hct).2
    obtain ⟨tail, hg, -, hk⟩ := generateAndWrite_cases w f cts (mainArgs f) pkg fields hall
    rw [main_eq_of_collected w f cts pkg astFiles fields tail hm hg]
    have g1 := eq_false_of_mem_map (Event.isCollect : Event Ast Fields G → Bool) f.typeName fields cts
      rfl rfl
    have c1 := countP_eq_zero_of_forall _ _ g1
    have c2 : tail.events.countP Event.isCollect = 0 := by
      apply countP_eq_zero_of_forall
      intro ev hev
      rcases hk ev hev with ⟨_, rfl⟩ | ⟨_, rfl⟩ | ⟨_, _, rfl⟩ <;> rfl
    have key : ∀ ev ∈ [Event.ParsePackage (mainArgs f), .ParseFiles pkg.GoFiles,
          .CollectConstructorFieldsFromAST f.typeName astFiles] ++
          (cts.map (generatorEvent f.typeName fields) ++
            .RootGenerate (rootStmt f pkg ++ cts.map (generatedStatement w f.typeName fields)) ::
              tail.events),
        ∀ input, ev.generatorInput = some input → input = (f.typeName, fields) := by
      intro ev hev input hin
      simp only [List.mem_append, List.mem_cons, List.mem_singleton, List.not_mem_nil,
        or_false] at hev
      rcases hev with (rfl | rfl | rfl) | h | rfl | h
      · cases hin
      · cases hin
      · cases hin
      · rw [generatorInput_of_mem_map _ _ _ _ h] at hin
        cases hin
        rfl
      · cases hin
      · rcases hk ev h with ⟨_, rfl⟩ | ⟨_, rfl⟩ | ⟨_, _, rfl⟩ <;> cases hin
    refine ⟨by simp [List.countP_cons, List.countP_append, Event.isCollect, c1, c2], ?_, ?_⟩
    · intro ev hev typeName fields' hin
      have := key ev hev _ hin
      cases this
      exact ⟨rfl, astFiles, by simp, hcc⟩
    · intro ev hev ev' hev' input input' hin hin'
      rw [key ev hev _ hin, key ev' hev' _ hin']

/-- C4: in every run of `main` that is not a `-version` display and returns
normally, with requested strategies `ts` (in flag order), the statement
sequence handed to the emitter is exactly: the provenance comment, a newline,
the package clause for the loaded package's name, a newline, then for each
`t` of `ts`, in order, the output of the all-args generator when `t` is the
all-args identifier and of the builder generator when `t` is `"builder"`;
that is `ts.length + 4` statements. -/
theorem main_success_statements (w : World Ast Fields G) (f : Flags)
    (hv : f.shouldShowVersion = false) (hr : (main w f).result = .returned) :
    ∃ ts pkg astFiles fields,
      getConstructorTypes f.constructorTypes = .ok ts ∧
      w.ParsePackage (mainArgs f) = .ok pkg ∧
      w.ParseFiles pkg.GoFiles = .ok astFiles ∧
      w.CollectConstructorFieldsFromAST f.typeName astFiles = .ok fields ∧
      (∀ t ∈ ts, t = allArgsConstructorType ∨ t = "builder") ∧
      (∀ stmts, Event.RootGenerate stmts ∈ (main w f).events ↔
        stmts =
          [ Statement.NewComment
              (" Code generated by gonstructor " ++ Join f.osArgs " " ++ "; DO NOT EDIT."),
            Statement.NewNewline,
            Statement.NewPackage pkg.Name,
            Statement.NewNewline ] ++
          ts.map (fun t =>
            if t = allArgsConstructorType
            then Statement.Generated (w.AllArgsGenerate f.typeName fields)
            else Statement.Generated (w.BuilderGenerate f.typeName fields))) ∧
      ([ Statement.NewComment
            (" Code generated by gonstructor " ++ Join f.osArgs " " ++ "; DO NOT EDIT."),
          Statement.NewNewline,
          Statement.NewPackage pkg.Name,
          Statement.NewNewline ] ++
        ts.map (fun t =>
          if t = allArgsConstructorType
          then Statement.Generated (w.AllArgsGenerate f.typeName fields)
          else Statement.Generated (w.BuilderGenerate f.typeName fields))).length
        = ts.length + 4 := by
  rcases main_cases w f with ⟨hv', -⟩ | ⟨-, -, hm⟩ | ⟨-, -, err, -, hm⟩ |
    ⟨-, -, cts, hct, ⟨err, -, hm⟩ | ⟨pkg, hpp, ⟨err, -, hm⟩ | ⟨astFiles, hpf, ⟨err, -, hm⟩ |
      ⟨fields, hcc, hm⟩⟩⟩⟩
  · rw [hv] at hv'
    cases hv'
  · simp [hm] at hr
  · simp [hm] at hr
  · simp [hm] at hr
  · simp [hm] at hr
  · simp [hm] at hr
  · have hall := ((getConstructorTypes_eq_ok_iff _ _).1 hct).2
    obtain ⟨tail, hg, ht, hk⟩ := generateAndWrite_cases w f cts (mainArgs f) pkg fields hall
    have hm' := main_eq_of_collected w f cts pkg astFiles fields tail hm hg
    refine ⟨cts, pkg, astFiles, fields, hct, hpp, hpf, hcc, hall, ?_, by simp⟩
    intro stmts
    rw [hm']
    have n1 : Event.RootGenerate stmts ∉
        cts.map (generatorEvent f.typeName fields : String → Event Ast Fields G) := by
      intro h
      have := generatorInput_of_mem_map _ _ _ _ h
      simp [Event.generatorInput] at this
    have n2 : Event.RootGenerate stmts ∉ tail.events := by
      intro h
      rcases hk _ h with ⟨_, h⟩ | ⟨_, h⟩ | ⟨_, _, h⟩ <;> cases h
    simp only [List.mem_append, List.mem_cons, List.mem_singleton, List.not_mem_nil,
      or_false, n1, n2, false_or, reduceCtorEq, Event.RootGenerate.injEq]
    rfl

/-- C2, as stated, fails: with `-version` and the unknown identifier `buildr`
the run shows the version and returns normally, not in failure. -/
theorem main_version_with_unknown_type_returns :
    (∃ piece ∈ Split versionFlags.constructorTypes ',',
        piece ≠ "allArgs" ∧ piece ≠ "builder") ∧
      main sampleWorld versionFlags = ⟨[.ShowVersion], .returned⟩ := by
  decide

/-- C2, amended: for every invocation of `main` whose `-constructorTypes`
value contains an unknown strategy identifier, none of `internal.ParsePackage`,
`internal.ParseFiles`, `constructor.CollectConstructorFieldsFromAST` or
`ioutil.WriteFile` is called; without `-version` the run ends in failure
(exit status 2), and with `-version` it shows the version and returns. -/
theorem main_unknown_type_never_loads (w : World Ast Fields G) (f : Flags)
    (h : ∃ piece ∈ Split f.constructorTypes ',', piece ≠ "allArgs" ∧ piece ≠ "builder") :
    (∀ ev ∈ (main w f).events, ev.isLoaderOrWrite = false) ∧
      (f.shouldShowVersion = false → (main w f).result = .exited 2) ∧
      (f.shouldShowVersion = true → main w f = ⟨[.ShowVersion], .returned⟩) := by
  obtain ⟨err, he⟩ := (getConstructorTypes_error_iff _).2 h
  rcases main_cases w f with ⟨hv, hm⟩ | ⟨hv, -, hm⟩ | ⟨hv, -, err, -, hm⟩ | ⟨-, -, cts, hct, -⟩
  · simp [hm, hv, Event.isLoaderOrWrite]
  · simp [hm, hv, Event.isLoaderOrWrite]
  · simp [hm, hv, Event.isLoaderOrWrite]
  · rw [he] at hct
    cases hct

/-- Witness for C2 (amended): `gonstructor -type User -constructorTypes buildr`. -/
theorem main_unknown_type_never_loads_witness :
    (∀ ev ∈ (main sampleWorld (sampleFlags "buildr" [])).events, ev.isLoaderOrWrite = false) ∧
      (main sampleWorld (sampleFlags "buildr" [])).result = .exited 2 :=
  have h := main_unknown_type_never_loads sampleWorld (sampleFlags "buildr" []) (by decide)
  ⟨h.1, h.2.1 rfl⟩

/-- C7, as stated, fails: with no `-output` and the single argument `./...`,
on which `os.Stat` fails, `getFilenameToGenerate` does not return
`filepath.Dir(args[0]) + "/user_gen.go"`: `log.Fatal` ends the process. -/
theorem getFilenameToGenerate_fatal_when_stat_fails :
    (sampleFlags "allArgs" ["./..."]).output = "" ∧
      getFilenameToGenerate sampleWorld (sampleFlags "allArgs" ["./..."]) ["./..."] =
        ⟨[.Stat "./...", .LogFatal "stat ./...: no such file or directory"],
          .error (.exited 1)⟩ ∧
      (getFilenameToGenerate sampleWorld (sampleFlags "allArgs" ["./..."]) ["./..."]).result ≠
        .ok (sampleWorld.Dir "./..." ++ "/" ++ sampleWorld.ToSnake "User" ++ "_gen.go") := by
  decide

/-- C7, amended: for every non-empty argument list `args`: if the `-output`
flag is non-empty, `getFilenameToGenerate` returns exactly that value without
consulting the filesystem; otherwise, when `args` has more than one element it
returns `filepath.Dir(args[0]) + "/" + snake_case(type name) + "_gen.go"`
without consulting the filesystem, and when `args` has exactly one element it
calls `os.Stat(args[0])`: if that succeeds the result is
`dir + "/" + snake_case(type name) + "_gen.go"` with `dir` being `args[0]` for
a directory and `filepath.Dir(args[0])` otherwise; if it fails, `log.Fatal`
ends the process with status 1 and nothing is returned. -/
theorem getFilenameToGenerate_spec (w : World Ast Fields G) (f : Flags) (args : List String)
    (hne : args ≠ []) :
    (f.output ≠ "" → getFilenameToGenerate w f args = ⟨[], .ok f.output⟩) ∧
      (f.output = "" →
        (args.length ≠ 1 →
          getFilenameToGenerate w f args =
            ⟨[], .ok (w.Dir (args.head hne) ++ "/" ++ w.ToSnake f.typeName ++ "_gen.go")⟩) ∧
        (args.length = 1 → ∀ isDir, w.Stat (args.head hne) = .ok isDir →
          getFilenameToGenerate w f args =
            ⟨[.Stat (args.head hne)],
              .ok ((if isDir then args.head hne else w.Dir (args.head hne))
                ++ "/" ++ w.ToSnake f.typeName ++ "_gen.go")⟩) ∧
        (args.length = 1 → ∀ err, w.Stat (args.head hne) = .error err →
          getFilenameToGenerate w f args =
            ⟨[.Stat (args.head hne), .LogFatal err], .error (.exited 1)⟩)) := by
  refine ⟨fun ho => by simp [getFilenameToGenerate, ho], fun ho => ?_⟩
  match args, hne with
  | [a], _ =>
    refine ⟨by simp, fun _ isDir hs => ?_, fun _ err hs => ?_⟩
    · simp only [List.head_cons] at hs
      cases isDir <;> simp [getFilenameToGenerate, isDirectory, ho, hs]
    · simp only [List.head_cons] at hs
      simp [getFilenameToGenerate, isDirectory, ho, hs]
  | a :: b :: rest, _ =>
    refine ⟨fun _ => by simp [getFilenameToGenerate, ho], by simp, by simp⟩

/-- Witness for C7 (amended): the directory argument `pkg`. -/
theorem getFilenameToGenerate_spec_witness :
    getFilenameToGenerate sampleWorld (sampleFlags "allArgs" ["pkg"]) ["pkg"] =
      ⟨[.Stat "pkg"],
        .ok ((if true then "pkg" else sampleWorld.Dir "pkg")
          ++ "/" ++ sampleWorld.ToSnake "User" ++ "_gen.go")⟩ :=
  (getFilenameToGenerate_spec sampleWorld (sampleFlags "allArgs" ["pkg"]) ["pkg"]
    (by decide)).2 rfl |>.2.1 rfl true (by decide)

/-- Witness for C4: `gonstructor -type User -constructorTypes allArgs,builder pkg`. -/
theorem main_success_statements_witness :
    ∃ ts pkg astFiles fields,
      getConstructorTypes "allArgs,builder" = .ok ts ∧
      sampleWorld.ParsePackage ["pkg"] = .ok pkg ∧
      sampleWorld.ParseFiles pkg.GoFiles = .ok astFiles ∧
      sampleWorld.CollectConstructorFieldsFromAST "User" astFiles = .ok fields ∧
      (∀ t ∈ ts, t = allArgsConstructorType ∨ t = "builder") ∧
      (∀ stmts, Event.RootGenerate stmts ∈
          (main sampleWorld (sampleFlags "allArgs,builder" ["pkg"])).events ↔
        stmts =
          [ Statement.NewComment
              (" Code generated by gonstructor " ++
                Join ["-type", "User", "-constructorTypes", "allArgs,builder", "pkg"] " " ++
                "; DO NOT EDIT."),
            Statement.NewNewline,
            Statement.NewPackage pkg.Name,
            Statement.NewNewline ] ++
          ts.map (fun t =>
            if t = allArgsConstructorType
            then Statement.Generated (sampleWorld.AllArgsGenerate "User" fields)
            else Statement.Generated (sampleWorld.BuilderGenerate "User" fields))) ∧
      ([ Statement.NewComment
            (" Code generated by gonstructor " ++
              Join ["-type", "User", "-constructorTypes", "allArgs,builder", "pkg"] " " ++
              "; DO NOT EDIT."),
          Statement.NewNewline,
          Statement.NewPackage pkg.Name,
          Statement.NewNewline ] ++
        ts.map (fun t =>
          if t = allArgsConstructorType
          then Statement.Generated (sampleWorld.AllArgsGenerate "User" fields)
          else Statement.Generated (sampleWorld.BuilderGenerate "User" fields))).length
        = ts.length + 4 :=
  main_success_statements sampleWorld (sampleFlags "allArgs,builder" ["pkg"]) rfl (by decide)

/-- Witness for C5: `gonstructor -type User -constructorTypes allArgs,builder pkg`
writes `pkg/user_gen.go` once, after every stage succeeded. -/
theorem main_writes_only_after_success_witness :
    (main sampleWorld (sampleFlags "allArgs,builder" ["pkg"])).events.countP
        Event.isWriteFile ≤ 1 ∧
      (sampleFlags "allArgs,builder" ["pkg"]).typeName ≠ "" :=
  have h := main_writes_only_after_success sampleWorld (sampleFlags "allArgs,builder" ["pkg"])
  ⟨h.1,
    (h.2 "pkg/user_gen.go"
      ("// Code generated by gonstructor -type User -constructorTypes allArgs,builder pkg; "
        ++ "DO NOT EDIT.\n\npackage model\n\nallArgs User name,age\nbuilder User name,age")
      0o644 (by decide)).2.1⟩

/-- Witness for C8: in `gonstructor -type User -constructorTypes allArgs,builder pkg`
the builder generator receives the type name `User` and the collected fields. -/
theorem main_collects_once_witness :
    "User" = (sampleFlags "allArgs,builder" ["pkg"]).typeName ∧
      ∃ astFiles,
        Event.CollectConstructorFieldsFromAST
            (sampleFlags "allArgs,builder" ["pkg"]).typeName astFiles ∈
          (main sampleWorld (sampleFlags "allArgs,builder" ["pkg"])).events ∧
        sampleWorld.CollectConstructorFieldsFromAST
            (sampleFlags "allArgs,builder" ["pkg"]).typeName astFiles = .ok ["name", "age"] :=
  (main_collects_once sampleWorld (sampleFlags "allArgs,builder" ["pkg"])).2.1
    (.BuilderGenerate "User" ["name", "age"]) (by decide) "User" ["name", "age"] rfl

/-- Witness for C10: on the flag value `builder,allArgs` the loop ends normally. -/
theorem main_default_case_unreachable_witness :
    (∀ c ∈ ["builder", "allArgs"], c = allArgsConstructorType ∨ c = builderConstructorType) ∧
      ∀ fields root, ∃ stmts,
        (addConstructors sampleWorld (sampleFlags "builder,allArgs" []).typeName fields
          ["builder", "allArgs"] root).result = .ok stmts :=
  (main_default_case_unreachable sampleWorld (sampleFlags "builder,allArgs" [])).1
    ["builder", "allArgs"] (by decide)

end MainFacts

end Gonstructor
